import Mathlib

/-!
Verification of the GiftWatch price extraction engine (src/price_fetcher.py)
against its natural-language specification.

The Python source is shallowly embedded: pure helpers become Lean functions
on `List Char` / `String`, Python `float` values are modelled exactly as
rationals (`ℚ`), the external libraries (requests, BeautifulSoup, json) are
modelled as oracles / pre-parsed document structures, and the retry loop is
an explicit recursion over a network oracle.
-/

/-- Model of Python `str.strip()`: remove leading and trailing whitespace.
Whitespace is modelled by `Char.isWhitespace` (ASCII whitespace; Python also
strips some further Unicode spaces, which no claim exercises). -/
def pyStrip (s : List Char) : List Char :=
  ((s.dropWhile Char.isWhitespace).reverse.dropWhile Char.isWhitespace).reverse

/-- Model of `re.sub(r"[^\d,\.]", "", s)` in `_to_float` (price_fetcher.py:29):
keep only digits, commas and dots.  `\d` is modelled as an ASCII digit. -/
def sanitize (s : List Char) : List Char :=
  s.filter (fun c => c.isDigit || c == ',' || c == '.')

/-- Model of Python `str.rfind(c)` (price_fetcher.py:32): index of the last
occurrence of `c`, or `-1` when absent. -/
def rfindIdx : List Char → Char → Int
  | [], _ => -1
  | x :: xs, c =>
    let r := rfindIdx xs c
    if 0 ≤ r then r + 1 else if x = c then 0 else -1

/-- Model of Python `str.split(sep)` for a one-character separator
(price_fetcher.py:40). `pySplit sep s` always returns at least one part. -/
def pySplit (sep : Char) : List Char → List (List Char)
  | [] => [[]]
  | c :: cs =>
    let r := pySplit sep cs
    if c = sep then [] :: r
    else
      match r with
      | [] => [[c]]
      | h :: t => (c :: h) :: t

/-- Numeric value of a list of decimal digits (most significant first). -/
def digitsVal (ds : List Char) : ℕ :=
  ds.foldl (fun a c => 10 * a + (c.toNat - 48)) 0

/-- Model of Python `float(s)` (price_fetcher.py:44) restricted to the
alphabet that can reach it in `_to_float` (digits, commas, dots): the string
parses iff it contains no comma, at most one dot, and at least one digit.
The value is modelled exactly as a rational (Python rounds it to binary64;
both sides of every spec equation round identically, so equalities between
`to_decimal` results and decimal literals are preserved). -/
def pyFloat (s : List Char) : Option ℚ :=
  if s.any (fun c => !(c.isDigit || c == '.')) then none
  else
    match pySplit '.' s with
    | [ds] => if ds.isEmpty then none else some (mkRat (digitsVal ds) 1)
    | [ip, fp] =>
      if ip.isEmpty && fp.isEmpty then none
      else some (mkRat (digitsVal ip * 10 ^ fp.length + digitsVal fp) (10 ^ fp.length))
    | _ => none

/-- The separator-normalization core of `_to_float` (price_fetcher.py:31-41),
applied to the already-sanitized string: disambiguate comma/dot as
decimal/thousands separators exactly as the source does. -/
def _to_float_norm (s0 : List Char) : List Char :=
  if s0.count ',' = 1 ∧ 1 ≤ s0.count '.' then
    if rfindIdx s0 '.' < rfindIdx s0 ',' then
      (s0.filter (fun c => c ≠ '.')).map (fun c => if c = ',' then '.' else c)
    else
      s0.filter (fun c => c ≠ ',')
  else if s0.count ',' = 1 ∧ s0.count '.' = 0 then
    s0.map (fun c => if c = ',' then '.' else c)
  else
    if 1 < s0.count '.' then
      let parts := pySplit '.' s0
      parts.dropLast.flatten ++ '.' :: (parts.getLast?.getD [])
    else s0

/-- Model of `_to_float` (price_fetcher.py:24-46): empty input is rejected,
the input is stripped and sanitized, separators are disambiguated, and the
result is parsed as a float (`none` on failure). -/
def _to_float (price_str : String) : Option ℚ :=
  if price_str.data.isEmpty then none
  else pyFloat (_to_float_norm (sanitize (pyStrip price_str.data)))

/-- Model of Python `str.upper()` (price_fetcher.py:52), per character. -/
def pyUpper (s : List Char) : List Char := s.map Char.toUpper

/-- Model of Python `str.lower()` (price_fetcher.py:186), per character. -/
def pyLower (s : String) : String := String.mk (s.data.map Char.toLower)

/-- Substring test: `containsSub needle hay` holds iff `needle` occurs
contiguously in `hay` (Python's `in` for strings). -/
def containsSub (needle : List Char) : List Char → Bool
  | [] => needle.isEmpty
  | c :: cs => needle.isPrefixOf (c :: cs) || containsSub needle cs

/-- Model of `_pick_currency` (price_fetcher.py:49-61): case-insensitive
scan for the four known currency markers, in source order. -/
def _pick_currency (text : String) : Option String :=
  if text.data.isEmpty then none
  else if containsSub ['€'] (pyUpper text.data) ||
       containsSub ['E', 'U', 'R'] (pyUpper text.data) then some "EUR"
  else if containsSub ['$'] (pyUpper text.data) ||
       containsSub ['U', 'S', 'D'] (pyUpper text.data) then some "USD"
  else if containsSub ['C', 'H', 'F'] (pyUpper text.data) then some "CHF"
  else if containsSub ['£'] (pyUpper text.data) ||
       containsSub ['G', 'B', 'P'] (pyUpper text.data) then some "GBP"
  else none

/-! Values produced by Python's `json.loads`: null, booleans, numbers,
strings, arrays and objects.  An object (`JObj`) is its field list in
document order.  A number is carried as its Python `repr` string, which is
all the source ever uses numbers for (`str(...)` conversion and
truthiness).  Arrays and objects are their own inductive types (rather
than nested `List`s) so that every function over them is structurally
recursive and evaluates on concrete inputs. -/
mutual

/-- A parsed JSON value. -/
inductive Json where
  | null
  | bool (v : Bool)
  | num (r : String)
  | str (s : String)
  | arr (elems : JArr)
  | obj (fields : JObj)

inductive JArr where
  | nil
  | cons (hd : Json) (tl : JArr)

inductive JObj where
  | nil
  | cons (key : String) (val : Json) (tl : JObj)

end

/-- Build a JSON array from a list of values. -/
def JArr.ofList : List Json → JArr
  | [] => .nil
  | v :: vs => .cons v (JArr.ofList vs)

/-- Build a JSON object from a key-value list in document order. -/
def JObj.ofList : List (String × Json) → JObj
  | [] => .nil
  | (k, v) :: ps => .cons k v (JObj.ofList ps)

/-- Python dictionary lookup `obj.get(k)` on a parsed JSON object: the last
binding of the key wins (duplicate keys collapse to the last binding in
`json.loads`). -/
def dget : JObj → String → Option Json
  | .nil, _ => none
  | .cons k v tl, key =>
    match dget tl key with
    | some r => some r
    | none => if k == key then some v else none

/-- Python truthiness of a parsed JSON value (used by the `or` chain at
price_fetcher.py:144).  A number parsed by `json.loads` is falsy exactly
when its `repr` is `0`, `0.0` or `-0.0`. -/
def truthy : Json → Bool
  | .null => false
  | .bool v => v
  | .num r => !(r == "0" || r == "0.0" || r == "-0.0")
  | .str s => !s.isEmpty
  | .arr .nil => false
  | .arr (.cons _ _) => true
  | .obj .nil => false
  | .obj (.cons _ _ _) => true

/-! Python `repr` of a parsed-JSON value (`str(obj)` for a dict at
price_fetcher.py:144 goes through `repr`).  Strings are shown in single
quotes (the common case: no claim exercises quote characters inside
strings, where Python would switch quoting/escaping). -/
mutual

/-- Python `repr` of a parsed-JSON value. -/
def pyRepr : Json → String
  | .null => "None"
  | .bool true => "True"
  | .bool false => "False"
  | .num r => r
  | .str s => "\x27" ++ s ++ "\x27"
  | .arr elems => "[" ++ String.intercalate ", " (pyReprArr elems) ++ "]"
  | .obj fields => "\x7b" ++ String.intercalate ", " (pyReprObj fields) ++ "\x7d"

/-- `repr` fragments of an array's items, in order. -/
def pyReprArr : JArr → List String
  | .nil => []
  | .cons hd tl => pyRepr hd :: pyReprArr tl

/-- `repr` fragments `'key': value` of an object's fields, in order. -/
def pyReprObj : JObj → List String
  | .nil => []
  | .cons k v tl => ("\x27" ++ k ++ "\x27: " ++ pyRepr v) :: pyReprObj tl

end

/-- Python `str(v)` for a parsed-JSON value (price_fetcher.py:141): a string
prints without quotes, everything else as its `repr`. -/
def pyStr : Json → String
  | .str s => s
  | v => pyRepr v

/-! Model of `_iter_json` (price_fetcher.py:64-71): depth-first walk of a
parsed JSON value yielding every dict encountered (the dict itself first,
then its values in order); lists recurse into their items. -/
mutual

/-- Depth-first walk yielding every dict in a parsed JSON value. -/
def _iter_json : Json → List JObj
  | .obj fields => fields :: iterJsonObj fields
  | .arr elems => iterJsonArr elems
  | .null => []
  | .bool _ => []
  | .num _ => []
  | .str _ => []

/-- Walk the items of an array, in order. -/
def iterJsonArr : JArr → List JObj
  | .nil => []
  | .cons hd tl => _iter_json hd ++ iterJsonArr tl

/-- Walk the values of an object's fields, in order. -/
def iterJsonObj : JObj → List JObj
  | .nil => []
  | .cons _ v tl => _iter_json v ++ iterJsonObj tl

end

/-- First-success iteration: Python's pattern of looping and returning on
the first candidate that yields a value. -/
def firstSome (l : List α) (f : α → Option β) : Option β :=
  match l with
  | [] => none
  | x :: xs =>
    match f x with
    | some r => some r
    | none => firstSome xs f

/-- A `<script type="application/ld+json">` block as BeautifulSoup and
`json.loads` (both external libraries) deliver it to the extractor:
`raw` is the stripped text content (price_fetcher.py:124) and `parsed`
is the outcome of `json.loads(raw)` — `none` when parsing raises
(price_fetcher.py:127-130). -/
structure Script where
  raw : String
  parsed : Option Json

/-- The two HTML attributes probed on `<meta>` tags (price_fetcher.py:150-156). -/
inductive MKey where
  | property
  | nameAttr

/-- A `<meta>` tag as BeautifulSoup delivers it: its optional `property`,
`name` and `content` attributes. -/
structure MetaTag where
  prop : Option String
  nm : Option String
  content : Option String

/-- The attribute of a meta tag selected by an `MKey`. -/
def attrOf (m : MetaTag) : MKey → Option String
  | .property => m.prop
  | .nameAttr => m.nm

/-- Model of `soup.find("meta", attrs={key: val})` (price_fetcher.py:159):
the first meta tag in document order whose `key` attribute equals `val`. -/
def findMeta (metas : List MetaTag) (k : MKey) (v : String) : Option MetaTag :=
  metas.find? (fun m => attrOf m k == some v)

/-- The parsed document, as the external BeautifulSoup parser delivers it
to the extraction code (price_fetcher.py:115-118): the
`application/ld+json` script blocks in document order, the meta tags in
document order, and the visible text `soup.get_text(" ", strip=True)`. -/
structure Soup where
  ldScripts : List Script
  metas : List MetaTag
  text : String

/-- The result triple `(price, currency, source)` of `fetch_price`
(price_fetcher.py:77-83).  The currency is a Python value: normally a
string, but the structured-data strategy can return an arbitrary JSON
value taken verbatim from a `priceCurrency` field. -/
structure ExtractionResult where
  price : Option ℚ
  currency : Option Json
  source : String

/-- Currency fallback `_pick_currency(str(obj)) or "EUR"`
(price_fetcher.py:144, right operands of the `or` chain). -/
def fallbackCurrency (fields : JObj) : Json :=
  match _pick_currency (pyRepr (.obj fields)) with
  | some c => .str c
  | none => .str "EUR"

/-- Model of `cur = obj.get("priceCurrency") or _pick_currency(str(obj)) or
"EUR"` (price_fetcher.py:144): a truthy `priceCurrency` value is used
verbatim; otherwise the fallback chain runs. -/
def resolveCurrency (fields : JObj) : Json :=
  match dget fields "priceCurrency" with
  | some v => if truthy v then v else fallbackCurrency fields
  | none => fallbackCurrency fields

/-- Model of the `@type` check (price_fetcher.py:135): the type
discriminator must equal the string `Offer` or `AggregateOffer`. -/
def isOfferType : Option Json → Bool
  | some (.str s) => s == "Offer" || s == "AggregateOffer"
  | _ => false

/-- One iteration of `for key in ("price", "lowPrice")`
(price_fetcher.py:139-145): if the key is present, normalize `str` of its
value; a normalization failure yields `none` (the loop continues). -/
def tryOfferKey (fields : JObj) (key : String) : Option (ℚ × Json × String) :=
  match dget fields key with
  | none => none
  | some v =>
    match _to_float (pyStr v) with
    | none => none
    | some p => some (p, resolveCurrency fields, "json-ld:" ++ key)

/-- Handling of one collected object (price_fetcher.py:133-145): objects
whose `@type` is not `Offer`/`AggregateOffer` are skipped; otherwise
`price` is tried, then `lowPrice`. -/
def tryOffer (fields : JObj) : Option (ℚ × Json × String) :=
  if isOfferType (dget fields "@type") then
    match tryOfferKey fields "price" with
    | some r => some r
    | none => tryOfferKey fields "lowPrice"
  else none

/-- Handling of one script block (price_fetcher.py:123-145): empty text is
skipped, a JSON parse failure is skipped, otherwise every collected dict
is examined in walk order. -/
def tryScript (sc : Script) : Option (ℚ × Json × String) :=
  if sc.raw.isEmpty then none
  else
    match sc.parsed with
    | none => none
    | some data => firstSome (_iter_json data) tryOffer

/-- Strategy 1, JSON-LD (price_fetcher.py:123-145): first success over the
script blocks in document order. -/
def jsonLdStrategy (scripts : List Script) : Option (ℚ × Json × String) :=
  firstSome scripts tryScript

/-- The ordered meta-tag candidates (price_fetcher.py:150-156). -/
def meta_candidates : List (MKey × String) :=
  [(.property, "product:price:amount"),
   (.property, "og:price:amount"),
   (.property, "product:price"),
   (.nameAttr, "twitter:data1"),
   (.nameAttr, "price")]

/-- One meta-tag candidate (price_fetcher.py:158-165): the first matching
tag must exist and carry a truthy (non-empty) `content`; its content is
normalized as the price and scanned for the currency. -/
def tryMetaCandidate (metas : List MetaTag) (kv : MKey × String) :
    Option (ℚ × Json × String) :=
  match findMeta metas kv.1 kv.2 with
  | none => none
  | some m =>
    match m.content with
    | none => none
    | some c =>
      if c.isEmpty then none
      else
        match _to_float c with
        | none => none
        | some p =>
          some (p, .str ((_pick_currency c).getD "EUR"), "meta:" ++ kv.2)

/-- Strategy 2, meta tags (price_fetcher.py:150-165): first success over
the fixed candidate list. -/
def metaStrategy (metas : List MetaTag) : Option (ℚ × Json × String) :=
  firstSome meta_candidates (tryMetaCandidate metas)

/-- The regular-expression constructs used by the four visible-text
patterns (price_fetcher.py:174-179): literal characters, `\d`, a character
class, concatenation, greedy `?` and greedy `*`. -/
inductive Rx where
  | lit (c : Char)
  | digit
  | cls (cs : List Char)
  | seq (a b : Rx)
  | opt (r : Rx)
  | star (r : Rx)

/-- Backtracking matcher with Python `re` semantics: greedy `*` and `?`
with backtracking (try the longer alternative first), `re.IGNORECASE` on
literals, continuation-passing to support backtracking through a
concatenation.  Returns the remaining suffix accepted by the continuation.
The first argument is fuel, decremented at every composite construct so
the recursion is structural (and therefore evaluates on concrete input):
a `star` iteration must consume input (Python's empty-match protection),
so fuel drain is at most the input length plus the pattern's nesting
depth, and the fuel `searchGroup0` supplies is never exhausted. -/
def mrun : Nat → Rx → List Char → (List Char → Option (List Char)) →
    Option (List Char)
  | _, .lit c, s, k =>
    (match s with
     | [] => none
     | x :: xs => if x.toLower == c.toLower then k xs else none)
  | _, .digit, s, k =>
    (match s with
     | [] => none
     | x :: xs => if x.isDigit then k xs else none)
  | _, .cls cs, s, k =>
    (match s with
     | [] => none
     | x :: xs => if cs.contains x then k xs else none)
  | 0, .seq _ _, _, _ => none
  | 0, .opt _, s, k => k s
  | 0, .star _, s, k => k s
  | f + 1, .seq a b, s, k => mrun f a s (fun s2 => mrun f b s2 k)
  | f + 1, .opt r, s, k => (mrun f r s k).orElse (fun _ => k s)
  | f + 1, .star r, s, k =>
    (mrun f r s (fun s2 =>
      if s2.length < s.length then mrun f (.star r) s2 k else none)).orElse
    (fun _ => k s)

/-- Model of `re.search(pat, text, flags=re.IGNORECASE)` followed by
`m.group(0)` (price_fetcher.py:182-184): try each start position from the
left; at the first position where the pattern matches, return the matched
substring (greedy/backtracking disambiguation as in `mrun`). -/
def searchGroup0 (r : Rx) : List Char → Option (List Char)
  | [] =>
    (match mrun 32 r [] some with
     | some _ => some []
     | none => none)
  | c :: xs =>
    (match mrun ((c :: xs).length + 32) r (c :: xs) some with
     | some rem => some ((c :: xs).take ((c :: xs).length - rem.length))
     | none => searchGroup0 r xs)

/-- `\d{1,3}` as used by all four patterns: greedy, preferring three
digits, then two, then one. -/
def d13 : Rx := .seq .digit (.opt (.seq .digit (.opt .digit)))

/-- `([.,]\d{3})` — one grouped-thousands block. -/
def grp3 : Rx := .seq (.cls ['.', ',']) (.seq .digit (.seq .digit .digit))

/-- `([.,]\d{2})` — a two-decimal block. -/
def grp2 : Rx := .seq (.cls ['.', ',']) (.seq .digit .digit)

/-- `\d{1,3}([.,]\d{3})*([.,]\d{2})?` — the shared numeric amount. -/
def amountRx : Rx := .seq d13 (.seq (.star grp3) (.opt grp2))

/-- `\s?` (ASCII whitespace; Python `\s` also covers some Unicode spaces,
which no claim exercises). -/
def wsOpt : Rx := .opt (.cls [' ', '\t', '\n', '\x0d', '\x0b', '\x0c'])

/-- Pattern `(\d{1,3}([.,]\d{3})*([.,]\d{2})?)\s?€` (price_fetcher.py:175). -/
def eurRx : Rx := .seq amountRx (.seq wsOpt (.lit '€'))

/-- Pattern `\$\s?(\d{1,3}([.,]\d{3})*([.,]\d{2})?)` (price_fetcher.py:176). -/
def usdRx : Rx := .seq (.lit '$') (.seq wsOpt amountRx)

/-- Pattern `(\d{1,3}([.,]\d{3})*([.,]\d{2})?)\s?CHF` (price_fetcher.py:177). -/
def chfRx : Rx :=
  .seq amountRx (.seq wsOpt (.seq (.lit 'C') (.seq (.lit 'H') (.lit 'F'))))

/-- Pattern `£\s?(\d{1,3}([.,]\d{3})*([.,]\d{2})?)` (price_fetcher.py:178). -/
def gbpRx : Rx := .seq (.lit '£') (.seq wsOpt amountRx)

/-- The ordered visible-text pattern list (price_fetcher.py:174-179). -/
def patterns : List (Rx × String) :=
  [(eurRx, "EUR"), (usdRx, "USD"), (chfRx, "CHF"), (gbpRx, "GBP")]

/-- Length cap on the visible text (price_fetcher.py:18). -/
def MAX_TEXT_LEN : Nat := 200000

/-- One visible-text pattern (price_fetcher.py:181-186): search the text;
if the match's full text normalizes as a number, return it tagged
`text:<currency-lowercase>`. -/
def tryPattern (t : List Char) (pc : Rx × String) : Option (ℚ × Json × String) :=
  match searchGroup0 pc.1 t with
  | none => none
  | some g =>
    match _to_float (String.mk g) with
    | none => none
    | some p => some (p, .str pc.2, "text:" ++ pyLower pc.2)

/-- Strategy 3, visible text (price_fetcher.py:170-186): the text is
truncated to `MAX_TEXT_LEN` characters when longer, then the patterns run
in order. -/
def textStrategy (text : String) : Option (ℚ × Json × String) :=
  firstSome patterns
    (tryPattern
      (if MAX_TEXT_LEN < text.data.length then text.data.take MAX_TEXT_LEN
       else text.data))

/-- The extraction pipeline of `fetch_price` run on the parsed document
(price_fetcher.py:114-188): the three strategies in priority order, the
first usable price winning; `(None, None, "not-found")` when all fail. -/
def extractPrice (doc : Soup) : ExtractionResult :=
  match jsonLdStrategy doc.ldScripts with
  | some (p, c, src) => ⟨some p, some c, src⟩
  | none =>
    match metaStrategy doc.metas with
    | some (p, c, src) => ⟨some p, some c, src⟩
    | none =>
      match textStrategy doc.text with
      | some (p, c, src) => ⟨some p, some c, src⟩
      | none => ⟨none, none, "not-found"⟩

/-- Retry budget (price_fetcher.py:17). -/
def MAX_RETRIES : Nat := 2

/-- Outcome of one `session.get(...)` + `raise_for_status()` attempt, as
the external requests library delivers it: a parsed document on success,
or a `requests.RequestException` carrying its type name and message. -/
inductive NetOutcome where
  | ok (doc : Soup)
  | err (typeName : String) (msg : String)

/-- Observable events of the fetch loop: issuing attempt `n`, or sleeping
for `d` seconds. -/
inductive FetchEvent where
  | att (n : Nat)
  | sleep (d : ℚ)

/-- The retry loop of `fetch_price` (price_fetcher.py:94-112) over a
network oracle `net` (outcome of each attempt) and a randomness oracle
`rand` (the `random.random()` draw of each attempt, in `[0,1)`): on
failure before the last attempt, sleep `0.6 + random.random() * 0.4` and
retry; on the last failure return the tagged error; the `for-else` arm
(loop exhausted without break) is kept for fidelity though unreachable.
Returns the event trace and either the fetched document or the error
source string. -/
def fetchLoop (net : Nat → NetOutcome) (rand : Nat → ℚ) (attempt : Nat)
    (evs : List FetchEvent) : List FetchEvent × (Soup ⊕ String) :=
  if _h : MAX_RETRIES < attempt then (evs, Sum.inr "request-error")
  else
    match net attempt with
    | .ok doc => (evs ++ [.att attempt], Sum.inl doc)
    | .err tn _ =>
      if MAX_RETRIES ≤ attempt then
        (evs ++ [.att attempt], Sum.inr ("request-error:" ++ tn))
      else
        fetchLoop net rand (attempt + 1)
          (evs ++ [.att attempt, .sleep (3 / 5 + rand attempt * (2 / 5))])
termination_by MAX_RETRIES + 1 - attempt
decreasing_by
  simp_wf
  omega

/-- Model of `fetch_price` (price_fetcher.py:77-188): run the retry loop
from attempt 1; on success extract from the document, on failure return
the tagged failure triple. -/
def fetch_price (net : Nat → NetOutcome) (rand : Nat → ℚ) : ExtractionResult :=
  match (fetchLoop net rand 1 []).2 with
  | Sum.inl doc => extractPrice doc
  | Sum.inr tag => ⟨none, none, tag⟩

/-- The event trace of a `fetch_price` run. -/
def fetchTrace (net : Nat → NetOutcome) (rand : Nat → ℚ) : List FetchEvent :=
  (fetchLoop net rand 1 []).1

/-- Number of request attempts in a trace. -/
def attCount (evs : List FetchEvent) : Nat :=
  (evs.filter (fun e => match e with | .att _ => true | .sleep _ => false)).length

example : _to_float "1.234,56" = some (mkRat 123456 100) := by decide
example : _to_float "1,234.56" = some (mkRat 123456 100) := by decide
example : _to_float "79,99" = some (mkRat 7999 100) := by decide
example : _to_float "abc" = none := by decide
example : _to_float "-5,00" = some (mkRat 5 1) := by decide
example : _to_float "0" = some (mkRat 0 1) := by decide
example : _to_float "1,2,3" = none := by decide
example : mkRat 5 1 = 5 := by decide
example : 0 ≤ mkRat 7999 100 := by decide
example : _pick_currency "Jetzt nur 19,99 €" = some "EUR" := by decide
example : _pick_currency "$19.99" = some "USD" := by decide
example : _pick_currency "no currency here" = none := by decide

/-! Helper lemmas shared by the claim theorems. -/

lemma firstSome_middle_none (f : α → Option β) (pre post : List α) (a : α)
    (ha : f a = none) :
    firstSome (pre ++ a :: post) f = firstSome (pre ++ post) f := by
  induction pre with
  | nil => simp [firstSome, ha]
  | cons x xs ih =>
    simp only [List.cons_append, firstSome]
    cases hfx : f x with
    | some v => rfl
    | none => exact ih

lemma firstSome_mem_forall {P : β → Prop} (f : α → Option β) (l : List α)
    (hall : ∀ a ∈ l, ∀ r, f a = some r → P r) :
    ∀ r, firstSome l f = some r → P r := by
  induction l with
  | nil => intro r h; simp [firstSome] at h
  | cons x xs ih =>
    intro r h
    unfold firstSome at h
    cases hfx : f x with
    | some v =>
      simp only [hfx] at h
      cases h
      exact hall x (List.mem_cons_self x xs) _ hfx
    | none =>
      simp only [hfx] at h
      exact ih (fun a hm => hall a (List.mem_cons_of_mem x hm)) r h

lemma pyFloat_nonneg (s : List Char) (q : ℚ) (h : pyFloat s = some q) : 0 ≤ q := by
  unfold pyFloat at h
  split at h
  · exact absurd h (by simp)
  · split at h
    · split at h
      · exact absurd h (by simp)
      · cases h
        rw [Rat.mkRat_eq_div]
        positivity
    · split at h
      · exact absurd h (by simp)
      · cases h
        rw [Rat.mkRat_eq_div]
        positivity
    · exact absurd h (by simp)

lemma to_float_nonneg (s : String) (q : ℚ) (h : _to_float s = some q) : 0 ≤ q := by
  unfold _to_float at h
  split at h
  · exact absurd h (by simp)
  · exact pyFloat_nonneg _ q h

lemma tryOfferKey_nonneg (fields : JObj) (key : String) (r : ℚ × Json × String)
    (h : tryOfferKey fields key = some r) : 0 ≤ r.1 := by
  unfold tryOfferKey at h
  split at h
  · exact absurd h (by simp)
  · split at h
    · exact absurd h (by simp)
    · cases h
      exact to_float_nonneg _ _ (by assumption)

lemma tryOffer_nonneg (fields : JObj) (r : ℚ × Json × String)
    (h : tryOffer fields = some r) : 0 ≤ r.1 := by
  unfold tryOffer at h
  split at h
  · cases hp : tryOfferKey fields "price" with
    | some v =>
      rw [hp] at h
      cases h
      exact tryOfferKey_nonneg _ _ _ hp
    | none =>
      rw [hp] at h
      exact tryOfferKey_nonneg _ _ _ h
  · exact absurd h (by simp)

lemma tryScript_nonneg (sc : Script) (r : ℚ × Json × String)
    (h : tryScript sc = some r) : 0 ≤ r.1 := by
  unfold tryScript at h
  split at h
  · exact absurd h (by simp)
  · split at h
    · exact absurd h (by simp)
    · exact firstSome_mem_forall tryOffer _
        (fun fields _ r hr => tryOffer_nonneg fields r hr) r h

lemma jsonLdStrategy_nonneg (scripts : List Script) (r : ℚ × Json × String)
    (h : jsonLdStrategy scripts = some r) : 0 ≤ r.1 :=
  firstSome_mem_forall tryScript scripts
    (fun sc _ r hr => tryScript_nonneg sc r hr) r h

lemma tryMetaCandidate_nonneg (metas : List MetaTag) (kv : MKey × String)
    (r : ℚ × Json × String) (h : tryMetaCandidate metas kv = some r) : 0 ≤ r.1 := by
  unfold tryMetaCandidate at h
  split at h
  · exact absurd h (by simp)
  · split at h
    · exact absurd h (by simp)
    · split at h
      · exact absurd h (by simp)
      · split at h
        · exact absurd h (by simp)
        · cases h
          exact to_float_nonneg _ _ (by assumption)

lemma metaStrategy_nonneg (metas : List MetaTag) (r : ℚ × Json × String)
    (h : metaStrategy metas = some r) : 0 ≤ r.1 :=
  firstSome_mem_forall (tryMetaCandidate metas) meta_candidates
    (fun kv _ r hr => tryMetaCandidate_nonneg metas kv r hr) r h

lemma tryPattern_nonneg (t : List Char) (pc : Rx × String) (r : ℚ × Json × String)
    (h : tryPattern t pc = some r) : 0 ≤ r.1 := by
  unfold tryPattern at h
  split at h
  · exact absurd h (by simp)
  · split at h
    · exact absurd h (by simp)
    · cases h
      exact to_float_nonneg _ _ (by assumption)

lemma textStrategy_nonneg (text : String) (r : ℚ × Json × String)
    (h : textStrategy text = some r) : 0 ≤ r.1 :=
  firstSome_mem_forall _ patterns
    (fun pc _ r hr => tryPattern_nonneg _ pc r hr) r h

lemma extractPrice_nonneg (doc : Soup) (p : ℚ) (c : Option Json) (src : String)
    (h : extractPrice doc = ⟨some p, c, src⟩) : 0 ≤ p := by
  unfold extractPrice at h
  split at h
  · cases h
    exact jsonLdStrategy_nonneg _ _ (by assumption)
  · split at h
    · cases h
      exact metaStrategy_nonneg _ _ (by assumption)
    · split at h
      · cases h
        exact textStrategy_nonneg _ _ (by assumption)
      · exact absurd h (by simp)

/-- Spec formulation (§4.3) of the one-comma-with-dots case: the separator
appearing last (rightmost) is the decimal separator (its occurrences map to
`.`), the other separator's occurrences are stripped. -/
def lastSepDecimal (t : List Char) : List Char :=
  if rfindIdx t '.' < rfindIdx t ',' then
    (t.filter (fun c => c ≠ '.')).map (fun c => if c = ',' then '.' else c)
  else
    (t.filter (fun c => c ≠ ',')).map (fun c => if c = '.' then '.' else c)

/-- Spec formulation (§4.3) of the one-comma-no-dot case: the comma is the
decimal separator. -/
def commaAsDecimal (t : List Char) : List Char :=
  t.map (fun c => if c = ',' then '.' else c)

/-- Spec formulation (§4.3) of the multiple-dot case: every dot with a
later dot is a thousands separator (dropped); the last dot is the decimal
separator. -/
def keepLastDot : List Char → List Char
  | [] => []
  | c :: cs => if c = '.' ∧ '.' ∈ cs then keepLastDot cs else c :: keepLastDot cs

lemma pySplit_ne_nil (sep : Char) (l : List Char) : pySplit sep l ≠ [] := by
  cases l with
  | nil => simp [pySplit]
  | cons c cs =>
    unfold pySplit
    simp only []
    split
    · simp
    · split <;> simp

lemma pySplit_of_not_mem (sep : Char) (l : List Char) (h : sep ∉ l) :
    pySplit sep l = [l] := by
  induction l with
  | nil => rfl
  | cons c cs ih =>
    have hc : c ≠ sep := fun hh => h (hh ▸ List.mem_cons_self c cs)
    have hcs : sep ∉ cs := fun hh => h (List.mem_cons_of_mem c hh)
    unfold pySplit
    simp only [if_neg hc, ih hcs]

lemma pySplit_length_two_of_mem (sep : Char) (l : List Char) (h : sep ∈ l) :
    2 ≤ (pySplit sep l).length := by
  induction l with
  | nil => cases h
  | cons c cs ih =>
    unfold pySplit
    simp only []
    by_cases hc : c = sep
    · rw [if_pos hc]
      have hne := pySplit_ne_nil sep cs
      have hlen : 1 ≤ (pySplit sep cs).length := List.length_pos.mpr hne
      simp only [List.length_cons]
      omega
    · rw [if_neg hc]
      have hcs : sep ∈ cs := by
        cases List.mem_cons.mp h with
        | inl hh => exact absurd hh.symm hc
        | inr hh => exact hh
      have h2 := ih hcs
      cases hps : pySplit sep cs with
      | nil => exact absurd hps (pySplit_ne_nil sep cs)
      | cons p ps =>
        rw [hps] at h2
        simp only [List.length_cons] at h2 ⊢
        omega

lemma keepLastDot_of_not_mem (l : List Char) (h : '.' ∉ l) : keepLastDot l = l := by
  induction l with
  | nil => rfl
  | cons c cs ih =>
    have hc : c ≠ '.' := fun hh => h (hh ▸ List.mem_cons_self c cs)
    have hcs : '.' ∉ cs := fun hh => h (List.mem_cons_of_mem c hh)
    have hh : keepLastDot (c :: cs) =
        if c = '.' ∧ '.' ∈ cs then keepLastDot cs
        else c :: keepLastDot cs := rfl
    rw [hh, if_neg (by simp [hc]), ih hcs]

lemma join_split_eq_keepLastDot (t : List Char) (h : '.' ∈ t) :
    (pySplit '.' t).dropLast.flatten ++
      '.' :: ((pySplit '.' t).getLast?.getD []) = keepLastDot t := by
  induction t with
  | nil => cases h
  | cons c cs ih =>
    by_cases hc : c = '.'
    · subst hc
      by_cases hm : '.' ∈ cs
      · have h2 := pySplit_length_two_of_mem '.' cs hm
        cases hps : pySplit '.' cs with
        | nil => exact absurd hps (pySplit_ne_nil '.' cs)
        | cons p ps =>
          rw [hps] at h2
          cases ps with
          | nil => simp at h2
          | cons q qs =>
            have hsplit : pySplit '.' ('.' :: cs) = [] :: p :: q :: qs := by
              unfold pySplit
              rw [if_pos rfl, hps]
            rw [hsplit]
            have hkeep : keepLastDot ('.' :: cs) = keepLastDot cs := by
              have hh : keepLastDot ('.' :: cs) =
                  if ('.' : Char) = '.' ∧ '.' ∈ cs then keepLastDot cs
                  else '.' :: keepLastDot cs := rfl
              rw [hh, if_pos ⟨rfl, hm⟩]
            rw [hkeep, ← ih hm, hps]
            simp [List.dropLast, List.getLast?]
      · have hps : pySplit '.' cs = [cs] := pySplit_of_not_mem '.' cs hm
        have hsplit : pySplit '.' ('.' :: cs) = [[], cs] := by
          unfold pySplit
          rw [if_pos rfl, hps]
        rw [hsplit]
        have hkeep : keepLastDot ('.' :: cs) = '.' :: cs := by
          have hh : keepLastDot ('.' :: cs) =
              if ('.' : Char) = '.' ∧ '.' ∈ cs then keepLastDot cs
              else '.' :: keepLastDot cs := rfl
          rw [hh, if_neg (by simp [hm]), keepLastDot_of_not_mem cs hm]
        rw [hkeep]
        simp [List.dropLast, List.getLast?]
    · have hm : '.' ∈ cs := by
        cases List.mem_cons.mp h with
        | inl hh => exact absurd hh.symm hc
        | inr hh => exact hh
      have h2 := pySplit_length_two_of_mem '.' cs hm
      cases hps : pySplit '.' cs with
      | nil => exact absurd hps (pySplit_ne_nil '.' cs)
      | cons p ps =>
        rw [hps] at h2
        cases ps with
        | nil => simp at h2
        | cons q qs =>
          have hsplit : pySplit '.' (c :: cs) = (c :: p) :: q :: qs := by
            unfold pySplit
            rw [if_neg hc, hps]
          rw [hsplit]
          have hkeep : keepLastDot (c :: cs) = c :: keepLastDot cs := by
            have hh : keepLastDot (c :: cs) =
                if c = '.' ∧ '.' ∈ cs then keepLastDot cs
                else c :: keepLastDot cs := rfl
            rw [hh, if_neg (by simp [hc])]
          rw [hkeep, ← ih hm, hps]
          simp [List.dropLast, List.getLast?]

lemma map_dot_id (l : List Char) :
    l.map (fun c => if c = '.' then '.' else c) = l := by
  have hcong : ∀ c ∈ l, (if c = '.' then '.' else c) = c := by
    intro c _
    by_cases hc : c = '.' <;> simp [hc]
  rw [List.map_congr_left hcong, List.map_id']

lemma to_float_norm_one_comma_dots (t : List Char) (h1 : t.count ',' = 1)
    (h2 : 1 ≤ t.count '.') : _to_float_norm t = lastSepDecimal t := by
  unfold _to_float_norm lastSepDecimal
  rw [if_pos ⟨h1, h2⟩]
  by_cases hr : rfindIdx t '.' < rfindIdx t ','
  · rw [if_pos hr, if_pos hr]
  · rw [if_neg hr, if_neg hr, map_dot_id]

lemma to_float_norm_one_comma_no_dot (t : List Char) (h1 : t.count ',' = 1)
    (h2 : t.count '.' = 0) : _to_float_norm t = commaAsDecimal t := by
  unfold _to_float_norm commaAsDecimal
  rw [if_neg (by rw [h2]; rintro ⟨-, hx⟩; omega), if_pos ⟨h1, h2⟩]

lemma to_float_norm_multi_dot (t : List Char) (h1 : t.count ',' ≠ 1)
    (h2 : 1 < t.count '.') : _to_float_norm t = keepLastDot t := by
  unfold _to_float_norm
  rw [if_neg (by rintro ⟨hx, -⟩; exact h1 hx),
      if_neg (by rintro ⟨hx, -⟩; exact h1 hx), if_pos h2]
  have hmem : '.' ∈ t := by
    have hpos : 0 < t.count '.' := by omega
    exact List.count_pos_iff.mp hpos
  exact join_split_eq_keepLastDot t hmem

lemma keepLastDot_mem_of_ne (c : Char) (l : List Char) (hne : c ≠ '.')
    (hc : c ∈ l) : c ∈ keepLastDot l := by
  induction l with
  | nil => cases hc
  | cons x xs ih =>
    have hh : keepLastDot (x :: xs) =
        if x = '.' ∧ '.' ∈ xs then keepLastDot xs
        else x :: keepLastDot xs := rfl
    rw [hh]
    split
    · rename_i hcond
      cases List.mem_cons.mp hc with
      | inl he => exact absurd (he.trans hcond.1) hne
      | inr hm => exact ih hm
    · cases List.mem_cons.mp hc with
      | inl he => exact he ▸ List.mem_cons_self x (keepLastDot xs)
      | inr hm => exact List.mem_cons_of_mem x (ih hm)

lemma pyFloat_none_of_comma (s : List Char) (h : ',' ∈ s) : pyFloat s = none := by
  unfold pyFloat
  rw [if_pos]
  exact List.any_eq_true.mpr ⟨',', h, by decide⟩

lemma to_float_norm_other (t : List Char) (h1 : t.count ',' ≠ 1)
    (h2 : ¬ 1 < t.count '.') : _to_float_norm t = t := by
  unfold _to_float_norm
  rw [if_neg (by rintro ⟨hx, -⟩; exact h1 hx),
      if_neg (by rintro ⟨hx, -⟩; exact h1 hx), if_neg h2]

lemma extract_jsonLd_some (doc : Soup) (p : ℚ) (c : Json) (src : String)
    (h : jsonLdStrategy doc.ldScripts = some (p, c, src)) :
    extractPrice doc = ⟨some p, some c, src⟩ := by
  unfold extractPrice
  rw [h]

lemma extract_meta_some (doc : Soup) (p : ℚ) (c : Json) (src : String)
    (h1 : jsonLdStrategy doc.ldScripts = none)
    (h2 : metaStrategy doc.metas = some (p, c, src)) :
    extractPrice doc = ⟨some p, some c, src⟩ := by
  unfold extractPrice
  rw [h1, h2]

lemma extract_text_some (doc : Soup) (p : ℚ) (c : Json) (src : String)
    (h1 : jsonLdStrategy doc.ldScripts = none)
    (h2 : metaStrategy doc.metas = none)
    (h3 : textStrategy doc.text = some (p, c, src)) :
    extractPrice doc = ⟨some p, some c, src⟩ := by
  unfold extractPrice
  rw [h1, h2, h3]

lemma extract_not_found (doc : Soup)
    (h1 : jsonLdStrategy doc.ldScripts = none)
    (h2 : metaStrategy doc.metas = none)
    (h3 : textStrategy doc.text = none) :
    extractPrice doc = ⟨none, none, "not-found"⟩ := by
  unfold extractPrice
  rw [h1, h2, h3]

lemma tryScript_none_of_parse_failure (sc : Script) (h : sc.parsed = none) :
    tryScript sc = none := by
  unfold tryScript
  rw [h]
  split <;> rfl

/-- C2 (counterexample): the claim asserts `to_decimal("-5,00") == none` and
that non-positive normalized values are rejected.  The code instead strips
the minus sign (`re.sub` keeps only digits, commas, dots), so `"-5,00"`
normalizes to `5.0`, and zero is not rejected: `_to_float "0" = 0.0`, and a
meta price of `"0"` is returned as an extraction result with price `0`. -/
theorem c2_counterexample :
    _to_float "-5,00" = some (mkRat 5 1) ∧ _to_float "-5,00" ≠ none ∧
    _to_float "0" = some (mkRat 0 1) ∧
    extractPrice ⟨[], [⟨some "product:price:amount", none, some "0"⟩], ""⟩ =
      ⟨some (mkRat 0 1), some (Json.str "EUR"), "meta:product:price:amount"⟩ ∧
    ¬ (0 : ℚ) < mkRat 0 1 :=
  ⟨by decide, by decide, by decide, rfl, by decide⟩

/-- C2 (amended): `_to_float` never returns a negative value (sign
characters are stripped before parsing, so every parsed string is made of
digits and a dot), and consequently every extraction result whose price is
present carries a value `≥ 0`; zero, however, is NOT rejected. -/
theorem c2_price_nonneg :
    (∀ (s : String) (q : ℚ), _to_float s = some q → 0 ≤ q) ∧
    (∀ (doc : Soup) (p : ℚ) (c : Option Json) (src : String),
      extractPrice doc = ⟨some p, c, src⟩ → 0 ≤ p) :=
  ⟨to_float_nonneg, extractPrice_nonneg⟩

/-- C2 witness: the amended theorem applied at `"79,99"`. -/
theorem c2_witness :
    _to_float "79,99" = some (mkRat 7999 100) ∧ 0 ≤ mkRat 7999 100 :=
  ⟨by decide, c2_price_nonneg.1 "79,99" (mkRat 7999 100) (by decide)⟩

/-- C4: separator disambiguation of `_to_float` refines the spec: with
exactly one comma and at least one dot the rightmost separator is the
decimal separator and the other separator's occurrences are removed
(`lastSepDecimal`); with exactly one comma and no dot the comma is the
decimal separator (`commaAsDecimal`); with no single comma and multiple
dots all but the last dot are dropped as thousands separators
(`keepLastDot`); and the four spec examples hold. -/
theorem c4_separator_disambiguation :
    (∀ s : String,
      (1 ≤ (sanitize (pyStrip s.data)).count '.' →
        (sanitize (pyStrip s.data)).count ',' = 1 →
        _to_float s = pyFloat (lastSepDecimal (sanitize (pyStrip s.data)))) ∧
      ((sanitize (pyStrip s.data)).count ',' = 1 →
        (sanitize (pyStrip s.data)).count '.' = 0 →
        _to_float s = pyFloat (commaAsDecimal (sanitize (pyStrip s.data)))) ∧
      ((sanitize (pyStrip s.data)).count ',' ≠ 1 →
        1 < (sanitize (pyStrip s.data)).count '.' →
        _to_float s = pyFloat (keepLastDot (sanitize (pyStrip s.data))))) ∧
    _to_float "1.234,56" = some (mkRat 123456 100) ∧
    _to_float "1,234.56" = some (mkRat 123456 100) ∧
    _to_float "79,99" = some (mkRat 7999 100) ∧
    _to_float "abc" = none := by
  refine ⟨fun s => ⟨?_, ?_, ?_⟩, by decide, by decide, by decide, by decide⟩
  · intro hdot hcomma
    by_cases he : s.data.isEmpty
    · exfalso
      rw [List.isEmpty_iff.mp he] at hcomma
      simp [sanitize, pyStrip] at hcomma
    · unfold _to_float
      rw [if_neg he]
      exact congrArg pyFloat (to_float_norm_one_comma_dots _ hcomma hdot)
  · intro hcomma hdot
    by_cases he : s.data.isEmpty
    · exfalso
      rw [List.isEmpty_iff.mp he] at hcomma
      simp [sanitize, pyStrip] at hcomma
    · unfold _to_float
      rw [if_neg he]
      exact congrArg pyFloat (to_float_norm_one_comma_no_dot _ hcomma hdot)
  · intro hcomma hdot
    by_cases he : s.data.isEmpty
    · exfalso
      rw [List.isEmpty_iff.mp he] at hdot
      simp [sanitize, pyStrip] at hdot
    · unfold _to_float
      rw [if_neg he]
      exact congrArg pyFloat (to_float_norm_multi_dot _ hcomma hdot)

/-- C4 witness: the one-comma-with-dots branch applied at `"1.234,56"`. -/
theorem c4_witness :
    1 ≤ (sanitize (pyStrip "1.234,56".data)).count '.' ∧
    (sanitize (pyStrip "1.234,56".data)).count ',' = 1 ∧
    _to_float "1.234,56" =
      pyFloat (lastSepDecimal (sanitize (pyStrip "1.234,56".data))) :=
  ⟨by decide, by decide,
   (c4_separator_disambiguation.1 "1.234,56").1 (by decide) (by decide)⟩

/-- C10: any input whose sanitized form (digits, commas and dots only)
still contains two or more commas fails numeric normalization: no
separator-disambiguation branch applies, the surviving comma makes the
final float parse fail, and `_to_float` returns `none`. -/
theorem c10_multi_comma_rejected (s : String)
    (h : 2 ≤ (sanitize (pyStrip s.data)).count ',') : _to_float s = none := by
  unfold _to_float
  by_cases he : s.data.isEmpty
  · rw [if_pos he]
  · rw [if_neg he]
    apply pyFloat_none_of_comma
    have hmem : ',' ∈ sanitize (pyStrip s.data) := List.count_pos_iff.mp (by omega)
    have hne : (sanitize (pyStrip s.data)).count ',' ≠ 1 := by omega
    by_cases hd : 1 < (sanitize (pyStrip s.data)).count '.'
    · rw [to_float_norm_multi_dot _ hne hd]
      exact keepLastDot_mem_of_ne ',' _ (by decide) hmem
    · rw [to_float_norm_other _ hne hd]
      exact hmem

/-- C10 witness: the theorem applied at `"1,2,3"`. -/
theorem c10_witness :
    2 ≤ (sanitize (pyStrip "1,2,3".data)).count ',' ∧ _to_float "1,2,3" = none :=
  ⟨by decide, c10_multi_comma_rejected "1,2,3" (by decide)⟩

lemma pick_currency_mem (s : String) (c : String) (h : _pick_currency s = some c) :
    c ∈ ["EUR", "USD", "CHF", "GBP"] := by
  unfold _pick_currency at h
  split at h
  · exact absurd h (by simp)
  · split at h
    · cases h; simp
    · split at h
      · cases h; simp
      · split at h
        · cases h; simp
        · split at h
          · cases h; simp
          · exact absurd h (by simp)

lemma fallbackCurrency_mem (fields : JObj) :
    fallbackCurrency fields ∈
      [Json.str "EUR", Json.str "USD", Json.str "CHF", Json.str "GBP"] := by
  unfold fallbackCurrency
  cases hp : _pick_currency (pyRepr (.obj fields)) with
  | some c =>
    have hmem := pick_currency_mem _ c hp
    simp only [List.mem_cons, List.not_mem_nil, or_false] at hmem
    rcases hmem with rfl | rfl | rfl | rfl <;> simp
  | none => simp

lemma resolveCurrency_closed (fields : JObj)
    (h : ∀ v, dget fields "priceCurrency" = some v → truthy v = false) :
    resolveCurrency fields ∈
      [Json.str "EUR", Json.str "USD", Json.str "CHF", Json.str "GBP"] := by
  unfold resolveCurrency
  cases hd : dget fields "priceCurrency" with
  | some v =>
    simp only [h v hd, Bool.false_eq_true, if_false]
    exact fallbackCurrency_mem fields
  | none => exact fallbackCurrency_mem fields

lemma resolveCurrency_verbatim (fields : JObj) (v : Json)
    (hd : dget fields "priceCurrency" = some v) (ht : truthy v = true) :
    resolveCurrency fields = v := by
  unfold resolveCurrency
  rw [hd]
  simp [ht]

lemma pick_currency_getD_mem (c : String) :
    Json.str ((_pick_currency c).getD "EUR") ∈
      [Json.str "EUR", Json.str "USD", Json.str "CHF", Json.str "GBP"] := by
  cases hp : _pick_currency c with
  | some c' =>
    have hmem := pick_currency_mem _ c' hp
    simp only [List.mem_cons, List.not_mem_nil, or_false] at hmem
    simp only [Option.getD_some]
    rcases hmem with rfl | rfl | rfl | rfl <;> simp
  | none => simp

lemma tryMetaCandidate_currency (metas : List MetaTag) (kv : MKey × String)
    (r : ℚ × Json × String) (h : tryMetaCandidate metas kv = some r) :
    r.2.1 ∈ [Json.str "EUR", Json.str "USD", Json.str "CHF", Json.str "GBP"] := by
  unfold tryMetaCandidate at h
  split at h
  · exact absurd h (by simp)
  · split at h
    · exact absurd h (by simp)
    · split at h
      · exact absurd h (by simp)
      · split at h
        · exact absurd h (by simp)
        · cases h
          exact pick_currency_getD_mem _

lemma tryPattern_currency (t : List Char) (pc : Rx × String)
    (r : ℚ × Json × String) (h : tryPattern t pc = some r) :
    r.2.1 = Json.str pc.2 := by
  unfold tryPattern at h
  split at h
  · exact absurd h (by simp)
  · split at h
    · exact absurd h (by simp)
    · cases h; rfl

lemma metaStrategy_currency (metas : List MetaTag) (r : ℚ × Json × String)
    (h : metaStrategy metas = some r) :
    r.2.1 ∈ [Json.str "EUR", Json.str "USD", Json.str "CHF", Json.str "GBP"] :=
  firstSome_mem_forall (tryMetaCandidate metas) meta_candidates
    (fun kv _ r hr => tryMetaCandidate_currency metas kv r hr) r h

lemma textStrategy_currency (text : String) (r : ℚ × Json × String)
    (h : textStrategy text = some r) :
    r.2.1 ∈ [Json.str "EUR", Json.str "USD", Json.str "CHF", Json.str "GBP"] := by
  unfold textStrategy at h
  have hall : ∀ pc ∈ patterns, ∀ r : ℚ × Json × String,
      tryPattern
        (if MAX_TEXT_LEN < text.data.length then List.take MAX_TEXT_LEN text.data
         else text.data) pc = some r →
      r.2.1 ∈ [Json.str "EUR", Json.str "USD", Json.str "CHF", Json.str "GBP"] := by
    intro pc hm r hr
    rw [tryPattern_currency _ pc r hr]
    simp only [patterns, List.mem_cons, List.not_mem_nil, or_false] at hm
    rcases hm with rfl | rfl | rfl | rfl <;> simp
  exact firstSome_mem_forall _ patterns hall r h

/-- C1 (counterexample): the claim requires that a `priceCurrency` outside
the closed set never be returned as the result currency, but the code
passes any truthy `priceCurrency` through verbatim: a JSON-LD offer with
`priceCurrency: "JPY"` yields result currency `JPY`, outside
`{EUR, USD, CHF, GBP}`. -/
theorem c1_counterexample :
    extractPrice
      ⟨[⟨"\x7b\"@type\": \"Offer\", \"price\": \"12.50\", \"priceCurrency\": \"JPY\"\x7d",
         some (Json.obj (JObj.ofList
           [("@type", Json.str "Offer"), ("price", Json.str "12.50"),
            ("priceCurrency", Json.str "JPY")]))⟩], [], ""⟩ =
      ⟨some (mkRat 1250 100), some (Json.str "JPY"), "json-ld:price"⟩ ∧
    "JPY" ∉ ["EUR", "USD", "CHF", "GBP"] :=
  ⟨rfl, by decide⟩

/-- C1 (amended): `_pick_currency` and with it the meta-tag and
visible-text strategies only ever produce currencies in the closed set
`{EUR, USD, CHF, GBP}`, and so does the structured-data strategy whenever
the offer object carries no truthy `priceCurrency` field; but a truthy
`priceCurrency` value is returned verbatim, even outside the set. -/
theorem c1_currency_set :
    (∀ s c : String, _pick_currency s = some c → c ∈ ["EUR", "USD", "CHF", "GBP"]) ∧
    (∀ (metas : List MetaTag) (r : ℚ × Json × String), metaStrategy metas = some r →
      r.2.1 ∈ [Json.str "EUR", Json.str "USD", Json.str "CHF", Json.str "GBP"]) ∧
    (∀ (text : String) (r : ℚ × Json × String), textStrategy text = some r →
      r.2.1 ∈ [Json.str "EUR", Json.str "USD", Json.str "CHF", Json.str "GBP"]) ∧
    (∀ fields : JObj,
      (∀ v, dget fields "priceCurrency" = some v → truthy v = false) →
      resolveCurrency fields ∈
        [Json.str "EUR", Json.str "USD", Json.str "CHF", Json.str "GBP"]) ∧
    (∀ (fields : JObj) (v : Json), dget fields "priceCurrency" = some v →
      truthy v = true → resolveCurrency fields = v) :=
  ⟨pick_currency_mem, metaStrategy_currency, textStrategy_currency,
   resolveCurrency_closed, resolveCurrency_verbatim⟩

/-- C1 witness: the verbatim-passthrough clause of the amended theorem
applied at an object whose `priceCurrency` is the truthy string `JPY`. -/
theorem c1_witness :
    dget (JObj.ofList [("priceCurrency", Json.str "JPY")]) "priceCurrency" =
      some (Json.str "JPY") ∧
    truthy (Json.str "JPY") = true ∧
    resolveCurrency (JObj.ofList [("priceCurrency", Json.str "JPY")]) =
      Json.str "JPY" :=
  ⟨rfl, rfl, c1_currency_set.2.2.2.2 _ _ rfl rfl⟩

lemma opt_none_or_some (o : Option α) : o = none ∨ ∃ a, o = some a := by
  cases o with
  | none => exact Or.inl rfl
  | some a => exact Or.inr ⟨a, rfl⟩

lemma tryOfferKey_src (fields : JObj) (key : String) (r : ℚ × Json × String)
    (h : tryOfferKey fields key = some r) : r.2.2 = "json-ld:" ++ key := by
  unfold tryOfferKey at h
  split at h
  · exact absurd h (by simp)
  · split at h
    · exact absurd h (by simp)
    · cases h; rfl

lemma tryOffer_price_first (fields : JObj) (v : Json) (p : ℚ)
    (htype : isOfferType (dget fields "@type") = true)
    (hv : dget fields "price" = some v)
    (hp : _to_float (pyStr v) = some p) :
    tryOffer fields = some (p, resolveCurrency fields, "json-ld:price") := by
  unfold tryOffer tryOfferKey
  rw [if_pos htype]
  simp only [hv, hp]
  rfl

lemma tryOffer_lowPrice_reason (fields : JObj) (r : ℚ × Json × String)
    (h : tryOffer fields = some r) (hsrc : r.2.2 = "json-ld:lowPrice") :
    dget fields "price" = none ∨
      ∃ v, dget fields "price" = some v ∧ _to_float (pyStr v) = none := by
  unfold tryOffer at h
  split at h
  · cases hp : tryOfferKey fields "price" with
    | some v =>
      rw [hp] at h
      cases h
      have hps := tryOfferKey_src fields "price" _ hp
      rw [hsrc] at hps
      exact absurd hps (by decide)
    | none =>
      unfold tryOfferKey at hp
      rcases opt_none_or_some (dget fields "price") with hd | ⟨v, hd⟩
      · exact Or.inl hd
      · simp only [hd] at hp
        rcases opt_none_or_some (_to_float (pyStr v)) with hf | ⟨p, hf⟩
        · exact Or.inr ⟨v, hd, hf⟩
        · simp only [hf] at hp
          exact absurd hp (by simp)
  · exact absurd h (by simp)

/-- C3 (counterexample): the claim says an offer object carrying both
`price` and `lowPrice` always uses `price` (never tagged
`json-ld:lowPrice`).  But when `price` fails numeric normalization the
loop falls through to `lowPrice`: an offer with `price: "abc"` and
`lowPrice: "5.00"` is returned as `5.0` tagged `json-ld:lowPrice`. -/
theorem c3_counterexample :
    extractPrice
      ⟨[⟨"\x7b\"@type\": \"Offer\", \"price\": \"abc\", \"lowPrice\": \"5.00\"\x7d",
         some (Json.obj (JObj.ofList
           [("@type", Json.str "Offer"), ("price", Json.str "abc"),
            ("lowPrice", Json.str "5.00")]))⟩], [], ""⟩ =
      ⟨some (mkRat 500 100), some (Json.str "EUR"), "json-ld:lowPrice"⟩ ∧
    dget (JObj.ofList
        [("@type", Json.str "Offer"), ("price", Json.str "abc"),
         ("lowPrice", Json.str "5.00")]) "price" = some (Json.str "abc") ∧
    dget (JObj.ofList
        [("@type", Json.str "Offer"), ("price", Json.str "abc"),
         ("lowPrice", Json.str "5.00")]) "lowPrice" = some (Json.str "5.00") :=
  ⟨rfl, rfl, rfl⟩

/-- C3 (amended): `price` is checked before `lowPrice`; when `price` is
present and normalizes, the result is tagged `json-ld:price`; the result
is tagged `json-ld:lowPrice` only when `price` is absent or its value
fails numeric normalization. -/
theorem c3_price_before_lowPrice :
    (∀ (fields : JObj) (v : Json) (p : ℚ),
      isOfferType (dget fields "@type") = true →
      dget fields "price" = some v → _to_float (pyStr v) = some p →
      tryOffer fields = some (p, resolveCurrency fields, "json-ld:price")) ∧
    (∀ (fields : JObj) (r : ℚ × Json × String), tryOffer fields = some r →
      r.2.2 = "json-ld:lowPrice" →
      dget fields "price" = none ∨
        ∃ v, dget fields "price" = some v ∧ _to_float (pyStr v) = none) :=
  ⟨tryOffer_price_first, tryOffer_lowPrice_reason⟩

/-- C3 witness: an offer carrying both keys with a parseable `price` uses
`price`, via the amended theorem. -/
theorem c3_witness :
    tryOffer (JObj.ofList
        [("@type", Json.str "Offer"), ("price", Json.str "7,90"),
         ("lowPrice", Json.str "5.00")]) =
      some (mkRat 790 100,
        resolveCurrency (JObj.ofList
          [("@type", Json.str "Offer"), ("price", Json.str "7,90"),
           ("lowPrice", Json.str "5.00")]), "json-ld:price") :=
  c3_price_before_lowPrice.1 _ _ _ rfl rfl (by decide)

/-- C5: the three strategies run strictly in the order structured-data,
meta-tag, visible-text, the first with a usable (non-null) price winning;
in particular any usable structured-data price wins over a conflicting
meta-tag price, and when all strategies fail the result is not-found. -/
theorem c5_strategy_priority (doc : Soup) :
    (∀ (p : ℚ) (c : Json) (src : String),
      jsonLdStrategy doc.ldScripts = some (p, c, src) →
      extractPrice doc = ⟨some p, some c, src⟩) ∧
    (jsonLdStrategy doc.ldScripts = none →
      ∀ (p : ℚ) (c : Json) (src : String),
        metaStrategy doc.metas = some (p, c, src) →
        extractPrice doc = ⟨some p, some c, src⟩) ∧
    (jsonLdStrategy doc.ldScripts = none → metaStrategy doc.metas = none →
      ∀ (p : ℚ) (c : Json) (src : String),
        textStrategy doc.text = some (p, c, src) →
        extractPrice doc = ⟨some p, some c, src⟩) ∧
    (jsonLdStrategy doc.ldScripts = none → metaStrategy doc.metas = none →
      textStrategy doc.text = none →
      extractPrice doc = ⟨none, none, "not-found"⟩) :=
  ⟨fun p c src h => extract_jsonLd_some doc p c src h,
   fun h1 p c src h2 => extract_meta_some doc p c src h1 h2,
   fun h1 h2 p c src h3 => extract_text_some doc p c src h1 h2 h3,
   fun h1 h2 h3 => extract_not_found doc h1 h2 h3⟩

/-- A page carrying both a usable JSON-LD offer (49.90 EUR) and a
conflicting usable meta tag price (12,50). -/
def docBothSignals : Soup :=
  ⟨[⟨"\x7b\"@type\": \"Offer\", \"price\": \"49.90\", \"priceCurrency\": \"EUR\"\x7d",
     some (Json.obj (JObj.ofList
       [("@type", Json.str "Offer"), ("price", Json.str "49.90"),
        ("priceCurrency", Json.str "EUR")]))⟩],
   [⟨some "og:price:amount", none, some "12,50"⟩], ""⟩

/-- C5 witness: on a page with both a usable structured-data price and a
conflicting usable meta-tag price, the structured-data result wins. -/
theorem c5_witness :
    metaStrategy docBothSignals.metas =
      some (mkRat 1250 100, Json.str "EUR", "meta:og:price:amount") ∧
    jsonLdStrategy docBothSignals.ldScripts =
      some (mkRat 4990 100, Json.str "EUR", "json-ld:price") ∧
    extractPrice docBothSignals =
      ⟨some (mkRat 4990 100), some (Json.str "EUR"), "json-ld:price"⟩ :=
  ⟨rfl, rfl, (c5_strategy_priority docBothSignals).1 _ _ _ rfl⟩

/-- C6: extraction is total (the model is a total function); a script
block whose JSON parse fails is skipped without affecting the rest of the
extraction, and when no strategy yields a usable price the result is
exactly `(None, None, "not-found")`. -/
theorem c6_malformed_skipped :
    (∀ (pre post : List Script) (sc : Script) (metas : List MetaTag) (text : String),
      sc.parsed = none →
      extractPrice ⟨pre ++ sc :: post, metas, text⟩ =
        extractPrice ⟨pre ++ post, metas, text⟩) ∧
    (∀ doc : Soup, jsonLdStrategy doc.ldScripts = none →
      metaStrategy doc.metas = none → textStrategy doc.text = none →
      extractPrice doc = ⟨none, none, "not-found"⟩) := by
  constructor
  · intro pre post sc metas text hparse
    have hjson : jsonLdStrategy (pre ++ sc :: post) = jsonLdStrategy (pre ++ post) :=
      firstSome_middle_none tryScript pre post sc
        (tryScript_none_of_parse_failure sc hparse)
    unfold extractPrice
    dsimp only
    rw [hjson]
  · exact fun doc h1 h2 h3 => extract_not_found doc h1 h2 h3

/-- C6 witness: a single unparseable script block is skipped, and the
empty document yields the not-found result. -/
theorem c6_witness :
    extractPrice ⟨[⟨"not json at all", none⟩], [], ""⟩ =
      extractPrice ⟨[], [], ""⟩ ∧
    extractPrice ⟨[], [], ""⟩ = ⟨none, none, "not-found"⟩ :=
  ⟨c6_malformed_skipped.1 [] [] ⟨"not json at all", none⟩ [] "" rfl,
   c6_malformed_skipped.2 ⟨[], [], ""⟩ rfl rfl rfl⟩

lemma fetchLoop_spec (net : Nat → NetOutcome) (rand : Nat → ℚ) :
    (∀ doc, net 1 = .ok doc →
      fetchLoop net rand 1 [] = ([.att 1], Sum.inl doc)) ∧
    (∀ tn m, net 1 = .err tn m →
      (∀ doc, net 2 = .ok doc →
        fetchLoop net rand 1 [] =
          ([.att 1, .sleep (3 / 5 + rand 1 * (2 / 5)), .att 2], Sum.inl doc)) ∧
      (∀ tn2 m2, net 2 = .err tn2 m2 →
        fetchLoop net rand 1 [] =
          ([.att 1, .sleep (3 / 5 + rand 1 * (2 / 5)), .att 2],
           Sum.inr ("request-error:" ++ tn2)))) := by
  constructor
  · intro doc h
    rw [fetchLoop, dif_neg (by decide), h]
    simp
  · intro tn m h
    have hstep : fetchLoop net rand 1 [] =
        fetchLoop net rand 2 [.att 1, .sleep (3 / 5 + rand 1 * (2 / 5))] := by
      rw [fetchLoop, dif_neg (by decide), h]
      simp [MAX_RETRIES]
    constructor
    · intro doc h2
      rw [hstep, fetchLoop, dif_neg (by decide), h2]
      simp
    · intro tn2 m2 h2
      rw [hstep, fetchLoop, dif_neg (by decide), h2]
      simp [MAX_RETRIES]

/-- C7: given jitter draws in `[0,1)`, the fetcher makes at most
`MAX_RETRIES = 2` attempts; after a failed non-final attempt it sleeps
exactly once, for `0.6 + random()*0.4 ∈ [0.6, 1)` seconds (and a
successful first attempt sleeps not at all); and when both attempts fail
it returns, without raising, the triple
`(None, None, "request-error:<exception type name>")` built from the type
name of the last error, not from its message. -/
theorem c7_retry_budget (net : Nat → NetOutcome) (rand : Nat → ℚ)
    (h0 : ∀ n, 0 ≤ rand n) (h1 : ∀ n, rand n < 1) :
    attCount (fetchTrace net rand) ≤ MAX_RETRIES ∧
    (∀ d, FetchEvent.sleep d ∈ fetchTrace net rand → 3 / 5 ≤ d ∧ d < 1) ∧
    (∀ doc, net 1 = .ok doc → fetchTrace net rand = [.att 1]) ∧
    (∀ tn m, net 1 = .err tn m →
      fetchTrace net rand = [.att 1, .sleep (3 / 5 + rand 1 * (2 / 5)), .att 2]) ∧
    (∀ tn m tn2 m2, net 1 = .err tn m → net 2 = .err tn2 m2 →
      fetch_price net rand = ⟨none, none, "request-error:" ++ tn2⟩) := by
  have hjit1 : 3 / 5 ≤ 3 / 5 + rand 1 * (2 / 5) := by
    have hm := mul_nonneg (h0 1) (by norm_num : (0 : ℚ) ≤ 2 / 5)
    linarith
  have hjit2 : 3 / 5 + rand 1 * (2 / 5) < 1 := by
    have hm := mul_lt_mul_of_pos_right (h1 1) (by norm_num : (0 : ℚ) < 2 / 5)
    rw [one_mul] at hm
    linarith
  cases hn1 : net 1 with
  | ok doc =>
    have ht : fetchTrace net rand = [.att 1] := by
      unfold fetchTrace
      rw [(fetchLoop_spec net rand).1 doc hn1]
    refine ⟨?_, ?_, ?_, ?_, ?_⟩
    · rw [ht]
      simp [attCount, MAX_RETRIES]
    · intro d hd
      rw [ht] at hd
      simp at hd
    · intro doc' _
      exact ht
    · intro tn m h'
      cases h'
    · intro tn m tn2 m2 h' _
      cases h'
  | err tn m =>
    cases hn2 : net 2 with
    | ok doc2 =>
      have ht : fetchTrace net rand =
          [.att 1, .sleep (3 / 5 + rand 1 * (2 / 5)), .att 2] := by
        unfold fetchTrace
        rw [((fetchLoop_spec net rand).2 tn m hn1).1 doc2 hn2]
      refine ⟨?_, ?_, ?_, ?_, ?_⟩
      · rw [ht]
        simp [attCount, MAX_RETRIES]
      · intro d hd
        rw [ht] at hd
        simp at hd
        rw [hd]
        exact ⟨hjit1, hjit2⟩
      · intro doc' h'
        cases h'
      · intro tn' m' h'
        cases h'
        exact ht
      · intro tn' m' tn2' m2' _ h2'
        cases h2'
    | err tn2 m2 =>
      have ht := ((fetchLoop_spec net rand).2 tn m hn1).2 tn2 m2 hn2
      have htr : fetchTrace net rand =
          [.att 1, .sleep (3 / 5 + rand 1 * (2 / 5)), .att 2] := by
        unfold fetchTrace
        rw [ht]
      refine ⟨?_, ?_, ?_, ?_, ?_⟩
      · rw [htr]
        simp [attCount, MAX_RETRIES]
      · intro d hd
        rw [htr] at hd
        simp at hd
        rw [hd]
        exact ⟨hjit1, hjit2⟩
      · intro doc' h'
        cases h'
      · intro tn' m' h'
        cases h'
        exact htr
      · intro tn' m' tn2' m2' _ h2'
        cases h2'
        unfold fetch_price
        rw [ht]

/-- Network oracle for the C7 witness: both attempts raise a
`ConnectTimeout` whose message differs from its type name. -/
def netTimeout : Nat → NetOutcome :=
  fun _ => .err "ConnectTimeout" "HTTPSConnectionPool: connection timed out"

/-- Randomness oracle for the C7 witness: every draw is 1/2. -/
def randHalf : Nat → ℚ := fun _ => 1 / 2

/-- C7 witness: with both attempts failing, the trace is
attempt-sleep-attempt with the expected jittered delay, and the result is
tagged with the exception type name only. -/
theorem c7_witness :
    fetchTrace netTimeout randHalf =
      [.att 1, .sleep (3 / 5 + (1 / 2 : ℚ) * (2 / 5)), .att 2] ∧
    fetch_price netTimeout randHalf =
      ⟨none, none, "request-error:ConnectTimeout"⟩ :=
  ⟨(c7_retry_budget netTimeout randHalf (fun _ => by norm_num [randHalf])
      (fun _ => by norm_num [randHalf])).2.2.2.1 "ConnectTimeout" _ rfl,
   (c7_retry_budget netTimeout randHalf (fun _ => by norm_num [randHalf])
      (fun _ => by norm_num [randHalf])).2.2.2.2 "ConnectTimeout" _
      "ConnectTimeout" _ rfl rfl⟩

/-- C8: `_pick_currency` scans the uppercased text for, in this order,
a Euro sign or `EUR`, a dollar sign or `USD`, `CHF`, a pound sign or
`GBP`; the first marker present wins, and when none of the four is
present the result is `none`; the three spec examples hold. -/
theorem c8_pick_currency_order :
    (∀ t : String,
      ((containsSub ['€'] (pyUpper t.data) ||
        containsSub ['E', 'U', 'R'] (pyUpper t.data)) = true →
        _pick_currency t = some "EUR") ∧
      ((containsSub ['€'] (pyUpper t.data) ||
        containsSub ['E', 'U', 'R'] (pyUpper t.data)) = false →
       (containsSub ['$'] (pyUpper t.data) ||
        containsSub ['U', 'S', 'D'] (pyUpper t.data)) = true →
        _pick_currency t = some "USD") ∧
      ((containsSub ['€'] (pyUpper t.data) ||
        containsSub ['E', 'U', 'R'] (pyUpper t.data)) = false →
       (containsSub ['$'] (pyUpper t.data) ||
        containsSub ['U', 'S', 'D'] (pyUpper t.data)) = false →
       containsSub ['C', 'H', 'F'] (pyUpper t.data) = true →
        _pick_currency t = some "CHF") ∧
      ((containsSub ['€'] (pyUpper t.data) ||
        containsSub ['E', 'U', 'R'] (pyUpper t.data)) = false →
       (containsSub ['$'] (pyUpper t.data) ||
        containsSub ['U', 'S', 'D'] (pyUpper t.data)) = false →
       containsSub ['C', 'H', 'F'] (pyUpper t.data) = false →
       (containsSub ['£'] (pyUpper t.data) ||
        containsSub ['G', 'B', 'P'] (pyUpper t.data)) = true →
        _pick_currency t = some "GBP") ∧
      ((containsSub ['€'] (pyUpper t.data) ||
        containsSub ['E', 'U', 'R'] (pyUpper t.data)) = false →
       (containsSub ['$'] (pyUpper t.data) ||
        containsSub ['U', 'S', 'D'] (pyUpper t.data)) = false →
       containsSub ['C', 'H', 'F'] (pyUpper t.data) = false →
       (containsSub ['£'] (pyUpper t.data) ||
        containsSub ['G', 'B', 'P'] (pyUpper t.data)) = false →
        _pick_currency t = none)) ∧
    _pick_currency "Jetzt nur 19,99 €" = some "EUR" ∧
    _pick_currency "$19.99" = some "USD" ∧
    _pick_currency "no currency here" = none := by
  refine ⟨fun t => ⟨?_, ?_, ?_, ?_, ?_⟩, by decide, by decide, by decide⟩
  · intro h1
    by_cases he : t.data.isEmpty
    · exfalso
      rw [List.isEmpty_iff.mp he] at h1
      simp [pyUpper, containsSub] at h1
    · unfold _pick_currency
      rw [if_neg he, if_pos h1]
  · intro h1 h2
    by_cases he : t.data.isEmpty
    · exfalso
      rw [List.isEmpty_iff.mp he] at h2
      simp [pyUpper, containsSub] at h2
    · unfold _pick_currency
      rw [if_neg he, if_neg (by simp [h1]), if_pos h2]
  · intro h1 h2 h3
    by_cases he : t.data.isEmpty
    · exfalso
      rw [List.isEmpty_iff.mp he] at h3
      simp [pyUpper, containsSub] at h3
    · unfold _pick_currency
      rw [if_neg he, if_neg (by simp [h1]), if_neg (by simp [h2]), if_pos h3]
  · intro h1 h2 h3 h4
    by_cases he : t.data.isEmpty
    · exfalso
      rw [List.isEmpty_iff.mp he] at h4
      simp [pyUpper, containsSub] at h4
    · unfold _pick_currency
      rw [if_neg he, if_neg (by simp [h1]), if_neg (by simp [h2]),
          if_neg (by simp [h3]), if_pos h4]
  · intro h1 h2 h3 h4
    by_cases he : t.data.isEmpty
    · unfold _pick_currency
      rw [if_pos he]
    · unfold _pick_currency
      rw [if_neg he, if_neg (by simp [h1]), if_neg (by simp [h2]),
          if_neg (by simp [h3]), if_neg (by simp [h4])]

/-- C8 witness: the Euro clause of the order theorem applied at the first
spec example. -/
theorem c8_witness :
    (containsSub ['€'] (pyUpper "Jetzt nur 19,99 €".data) ||
     containsSub ['E', 'U', 'R'] (pyUpper "Jetzt nur 19,99 €".data)) = true ∧
    _pick_currency "Jetzt nur 19,99 €" = some "EUR" :=
  ⟨by decide, (c8_pick_currency_order.1 "Jetzt nur 19,99 €").1 (by decide)⟩

lemma tryPattern_src (t : List Char) (pc : Rx × String) (r : ℚ × Json × String)
    (h : tryPattern t pc = some r) : r.2.2 = "text:" ++ pyLower pc.2 := by
  unfold tryPattern at h
  split at h
  · exact absurd h (by simp)
  · split at h
    · exact absurd h (by simp)
    · cases h; rfl

/-- C9: the visible-text strategy operates on the text truncated to
`MAX_TEXT_LEN = 200000` characters; its result is always tagged
`text:eur`, `text:usd`, `text:chf` or `text:gbp`; and the four currency
patterns are tried in the fixed order Euro-suffixed, Dollar-prefixed,
CHF-suffixed, Pound-prefixed, the first pattern whose match normalizes
successfully winning. -/
theorem c9_text_strategy :
    (∀ text : String,
      textStrategy text =
        firstSome patterns (tryPattern (text.data.take MAX_TEXT_LEN))) ∧
    (∀ (text : String) (r : ℚ × Json × String), textStrategy text = some r →
      r.2.2 ∈ ["text:eur", "text:usd", "text:chf", "text:gbp"]) ∧
    (∀ t : List Char,
      (∀ r, tryPattern t (eurRx, "EUR") = some r →
        firstSome patterns (tryPattern t) = some r) ∧
      (tryPattern t (eurRx, "EUR") = none →
        ∀ r, tryPattern t (usdRx, "USD") = some r →
          firstSome patterns (tryPattern t) = some r) ∧
      (tryPattern t (eurRx, "EUR") = none → tryPattern t (usdRx, "USD") = none →
        ∀ r, tryPattern t (chfRx, "CHF") = some r →
          firstSome patterns (tryPattern t) = some r) ∧
      (tryPattern t (eurRx, "EUR") = none → tryPattern t (usdRx, "USD") = none →
        tryPattern t (chfRx, "CHF") = none →
          ∀ r, tryPattern t (gbpRx, "GBP") = some r →
            firstSome patterns (tryPattern t) = some r) ∧
      (tryPattern t (eurRx, "EUR") = none → tryPattern t (usdRx, "USD") = none →
        tryPattern t (chfRx, "CHF") = none → tryPattern t (gbpRx, "GBP") = none →
          firstSome patterns (tryPattern t) = none)) := by
  refine ⟨?_, ?_, ?_⟩
  · intro text
    unfold textStrategy
    by_cases hlen : MAX_TEXT_LEN < text.data.length
    · rw [if_pos hlen]
    · rw [if_neg hlen, List.take_of_length_le (by omega)]
  · intro text r h
    unfold textStrategy at h
    have hall : ∀ pc ∈ patterns, ∀ r : ℚ × Json × String,
        tryPattern
          (if MAX_TEXT_LEN < text.data.length then List.take MAX_TEXT_LEN text.data
           else text.data) pc = some r →
        r.2.2 ∈ ["text:eur", "text:usd", "text:chf", "text:gbp"] := by
      intro pc hm r hr
      rw [tryPattern_src _ pc r hr]
      simp only [patterns, List.mem_cons, List.not_mem_nil, or_false] at hm
      rcases hm with rfl | rfl | rfl | rfl <;> decide
    exact firstSome_mem_forall _ patterns hall r h
  · intro t
    refine ⟨?_, ?_, ?_, ?_, ?_⟩
    · intro r h
      simp [patterns, firstSome, h]
    · intro h1 r h
      simp [patterns, firstSome, h1, h]
    · intro h1 h2 r h
      simp [patterns, firstSome, h1, h2, h]
    · intro h1 h2 h3 r h
      simp [patterns, firstSome, h1, h2, h3, h]
    · intro h1 h2 h3 h4
      simp [patterns, firstSome, h1, h2, h3, h4]

set_option maxRecDepth 8000 in
/-- C9 witness: on the spec example text the Euro pattern matches and
normalizes, and the strategy returns it tagged `text:eur`. -/
theorem c9_witness :
    tryPattern "Preis: 99,00 €".data (eurRx, "EUR") =
      some (mkRat 9900 100, Json.str "EUR", "text:eur") ∧
    firstSome patterns (tryPattern "Preis: 99,00 €".data) =
      some (mkRat 9900 100, Json.str "EUR", "text:eur") ∧
    textStrategy "Preis: 99,00 €" =
      some (mkRat 9900 100, Json.str "EUR", "text:eur") :=
  ⟨rfl, (c9_text_strategy.2.2 "Preis: 99,00 €".data).1 _ rfl, rfl⟩
